import Mathlib

/-!
Verification of the sandboxed code-evaluation engine in src/eval.c.

The C program compiles an untrusted source file, runs it against a suite of
test cases in a forked child with piped stdin/stdout, enforces a wall-clock
deadline by polling every 10 ms, scores the results (simple and weighted pass
rates), audits memory via an external checker log, and probes robustness by
delivering SIGINT to a freshly spawned child.

The embedding below models the OS-dependent parts (pipe/fork/exec success,
the time at which a child becomes reapable and its wait status, the bytes it
wrote to its output pipe, the contents of the memory-checker log) as explicit
environment values, and translates the C control flow over them.
-/

namespace CodeEval

/-! ## Constants from eval.c -/

/-- TIMEOUT_SECONDS in eval.c: the wall-clock deadline for one test run. -/
def TIMEOUT_SECONDS : Nat := 5

/-- MAX_OUTPUT_SIZE in eval.c: the size of the caller-supplied output buffer. -/
def MAX_OUTPUT_SIZE : Nat := 4096

/-- MAX_TESTS in eval.c: bound on retained failure-detail entries. -/
def MAX_TESTS : Nat := 20

/-- EXEC_FAILURE_EXIT_CODE in eval.c: exit code of the child when execl fails. -/
def EXEC_FAILURE_EXIT_CODE : Nat := 127

/-- ROBUSTNESS_SIGINT_WAIT_US in eval.c: settling delay before SIGINT. -/
def ROBUSTNESS_SIGINT_WAIT_US : Nat := 200000

/-! ## The 10 ms polling loop

Both run_test_process and check_robustness contain the loop

  while (current_time_ms() - start < deadline)
    if (waitpid(pid, and status, WNOHANG) == pid) ... ; usleep(10000);

Ignoring the negligible cost of the check itself, the waitpid probes happen at
elapsed times 0, 10, 20, ... ms.  The model takes the time (ms after the loop
starts) at which the child becomes reapable, or none if it never terminates,
and reports whether a probe inside the deadline observed the termination. -/

/-- Models the polling wait loop of eval.c: probes at elapsed = 0, 10, 20, ...
while elapsed < deadline; returns true when a probe observes the child
(term is its termination time in ms, none if it never terminates). -/
def poll_wait (deadline : Nat) (term : Option Nat) (elapsed : Nat) : Bool :=
  if _h : elapsed < deadline then
    match term with
    | some t => if t ≤ elapsed then true else poll_wait deadline term (elapsed + 10)
    | none => poll_wait deadline term (elapsed + 10)
  else false
termination_by deadline - elapsed
decreasing_by all_goals omega

/-- Counts the iterations the polling loop of eval.c executes (each iteration
is one waitpid probe). -/
def poll_iters (deadline : Nat) (term : Option Nat) (elapsed : Nat) : Nat :=
  if _h : elapsed < deadline then
    match term with
    | some t => if t ≤ elapsed then 1 else poll_iters deadline term (elapsed + 10) + 1
    | none => poll_iters deadline term (elapsed + 10) + 1
  else 0
termination_by deadline - elapsed
decreasing_by all_goals omega

theorem poll_wait_none_aux (k : Nat) :
    ∀ d e, d - e ≤ 10 * k → poll_wait d none e = false := by
  induction k with
  | zero =>
    intro d e h
    rw [poll_wait]
    have hne : ¬ e < d := by omega
    simp [hne]
  | succ k ih =>
    intro d e h
    rw [poll_wait]
    by_cases h2 : e < d
    · simp only [dif_pos h2]
      exact ih d (e + 10) (by omega)
    · simp [h2]

/-- A child that never terminates is never observed by the polling loop. -/
theorem poll_wait_none (d e : Nat) : poll_wait d none e = false :=
  poll_wait_none_aux d d e (by omega)

theorem poll_wait_some_aux (k : Nat) :
    ∀ d t e, d - e ≤ 10 * k →
      (poll_wait d (some t) e = true ↔ ∃ j, e + 10 * j < d ∧ t ≤ e + 10 * j) := by
  induction k with
  | zero =>
    intro d t e h
    rw [poll_wait]
    have hne : ¬ e < d := by omega
    simp only [dif_neg hne]
    constructor
    · intro hf; exact absurd hf (by simp)
    · rintro ⟨j, hj1, _⟩; omega
  | succ k ih =>
    intro d t e h
    rw [poll_wait]
    by_cases h2 : e < d
    · simp only [dif_pos h2]
      by_cases h3 : t ≤ e
      · simp only [if_pos h3]
        constructor
        · intro _; exact ⟨0, by omega, by omega⟩
        · intro _; trivial
      · simp only [if_neg h3]
        rw [ih d t (e + 10) (by omega)]
        constructor
        · rintro ⟨j, hj1, hj2⟩; exact ⟨j + 1, by omega, by omega⟩
        · rintro ⟨j, hj1, hj2⟩
          have hj : 1 ≤ j := by omega
          exact ⟨j - 1, by omega, by omega⟩
    · simp only [dif_neg h2]
      constructor
      · intro hf; exact absurd hf (by simp)
      · rintro ⟨j, hj1, _⟩; omega

/-- Characterization of the polling loop: a child terminating at time t is
observed exactly when some probe time e + 10j lies inside the deadline at or
after t. -/
theorem poll_wait_some_iff (d t e : Nat) :
    poll_wait d (some t) e = true ↔ ∃ j, e + 10 * j < d ∧ t ≤ e + 10 * j :=
  poll_wait_some_aux d d t e (by omega)

/-- With the 5-second deadline of run_test_process, a child terminating at
t ms is reaped by the loop exactly when t ≤ 4990 (the last probe time). -/
theorem poll_wait_timeout_iff (t : Nat) :
    poll_wait (TIMEOUT_SECONDS * 1000) (some t) 0 = true ↔ t ≤ 4990 := by
  rw [poll_wait_some_iff]
  show (∃ j, 0 + 10 * j < TIMEOUT_SECONDS * 1000 ∧ t ≤ 0 + 10 * j) ↔ t ≤ 4990
  have hd : TIMEOUT_SECONDS * 1000 = 5000 := by norm_num [TIMEOUT_SECONDS]
  rw [hd]
  constructor
  · rintro ⟨j, hj1, hj2⟩; omega
  · intro ht; exact ⟨(t + 9) / 10, by omega, by omega⟩

/-- With the 1-second window of check_robustness, a child terminating t ms
after SIGINT is observed exactly when t ≤ 990 (the last probe time). -/
theorem poll_wait_probe_iff (t : Nat) :
    poll_wait 1000 (some t) 0 = true ↔ t ≤ 990 := by
  rw [poll_wait_some_iff]
  constructor
  · rintro ⟨j, hj1, hj2⟩; omega
  · intro ht; exact ⟨(t + 9) / 10, by omega, by omega⟩

theorem poll_iters_le_aux (k : Nat) :
    ∀ d term e, d - e ≤ 10 * k → poll_iters d term e ≤ (d - e + 9) / 10 := by
  induction k with
  | zero =>
    intro d term e h
    rw [poll_iters.eq_def]
    have hne : ¬ e < d := by omega
    simp [hne]
  | succ k ih =>
    intro d term e h
    rw [poll_iters.eq_def]
    by_cases h2 : e < d
    · simp only [dif_pos h2]
      rcases term with _ | t
      · show poll_iters d none (e + 10) + 1 ≤ (d - e + 9) / 10
        have := ih d none (e + 10) (by omega)
        omega
      · show (if t ≤ e then 1 else poll_iters d (some t) (e + 10) + 1) ≤ (d - e + 9) / 10
        by_cases h3 : t ≤ e
        · simp only [if_pos h3]; omega
        · simp only [if_neg h3]
          have := ih d (some t) (e + 10) (by omega)
          omega
    · simp [h2]

/-- The polling loop executes at most ⌈(deadline - elapsed) / 10⌉ probes. -/
theorem poll_iters_le (d term e) : poll_iters d term e ≤ (d - e + 9) / 10 :=
  poll_iters_le_aux d d term e (by omega)

/-! ## The Sandboxed Runner: run_test_process -/

/-- Wait status of a terminated child, as decoded by WIFEXITED / WEXITSTATUS /
WIFSIGNALED in the parent. -/
inductive WaitStatus where
  | exited (code : Nat)
  | signaled (sig : Nat)
deriving DecidableEq

/-- Environment of one run_test_process invocation: which OS primitives
succeed, and how the child would behave.  childExit gives the time (ms after
the wait loop starts) at which the child becomes reapable together with its
wait status, or none if it would never terminate on its own; childOutput is
the byte sequence available on the stdout pipe once the child has exited. -/
structure RunEnv where
  pipe1Ok : Bool
  pipe2Ok : Bool
  forkOk : Bool
  execOk : Bool
  childExit : Option (Nat × WaitStatus)
  childOutput : List Char

/-- Termination behavior of the spawned child: if execl fails, the child
calls exit(EXEC_FAILURE_EXIT_CODE) immediately (eval.c line 483); otherwise
it behaves as the environment prescribes. -/
def childTermination (env : RunEnv) : Option (Nat × WaitStatus) :=
  if env.execOk then env.childExit else some (0, WaitStatus.exited EXEC_FAILURE_EXIT_CODE)

/-- Time at which the child becomes reapable, if ever. -/
def termTime (env : RunEnv) : Option Nat := (childTermination env).map Prod.fst

/-- Status observed by the WNOHANG wait loop of run_test_process: some st
when a probe inside the 5-second deadline reaps the child with status st,
none when the deadline expires first. -/
def classify (term : Option (Nat × WaitStatus)) : Option WaitStatus :=
  match term with
  | none => none
  | some (t, st) => if poll_wait (TIMEOUT_SECONDS * 1000) (some t) 0 then some st else none

/-- Result of one run_test_process call.  buffer is the NUL-terminated
content written into the caller-supplied output buffer (none when the call
never writes it); openFds counts the pipe file descriptors created by this
call that are still open in the parent when it returns; killedSignal is the
signal the parent sent to the child (some 9 on the SIGKILL timeout path). -/
structure RunResult where
  ret : Int
  buffer : Option (List Char)
  childSpawned : Bool
  childReaped : Bool
  killedSignal : Option Nat
  openFds : Nat
  loopIters : Nat
deriving DecidableEq

/-- Translation of run_test_process (eval.c lines 454-518).  The early
returns mirror the pipe and fork failure paths; on the main path the parent
closes its unused pipe ends, writes the input, and runs the polling wait
loop; a clean exit 0 reads up to buffer_size - 1 output bytes and
NUL-terminates, any other observed status returns -1 without reading, and
deadline expiry kills the child with SIGKILL, reaps it, and returns -1. -/
def run_test_process (env : RunEnv) (buffer_size : Nat) : RunResult :=
  if env.pipe1Ok = false then
    { ret := -1, buffer := none, childSpawned := false, childReaped := false,
      killedSignal := none, openFds := 0, loopIters := 0 }
  else if env.pipe2Ok = false then
    { ret := -1, buffer := none, childSpawned := false, childReaped := false,
      killedSignal := none, openFds := 2, loopIters := 0 }
  else if env.forkOk = false then
    { ret := -1, buffer := none, childSpawned := false, childReaped := false,
      killedSignal := none, openFds := 4, loopIters := 0 }
  else
    let iters := poll_iters (TIMEOUT_SECONDS * 1000) (termTime env) 0
    match classify (childTermination env) with
    | some (WaitStatus.exited 0) =>
      { ret := 0, buffer := some (env.childOutput.take (buffer_size - 1)),
        childSpawned := true, childReaped := true, killedSignal := none,
        openFds := 0, loopIters := iters }
    | some _ =>
      { ret := -1, buffer := none, childSpawned := true, childReaped := true,
        killedSignal := none, openFds := 0, loopIters := iters }
    | none =>
      { ret := -1, buffer := none, childSpawned := true, childReaped := true,
        killedSignal := some 9, openFds := 0, loopIters := iters }

/-- How the spawned child actually ends, taking the parent into account: if
the wait loop observes its termination the child ended with its own status,
otherwise the parent SIGKILLs it at the deadline and it dies by signal 9. -/
def actualTermination (env : RunEnv) : WaitStatus :=
  match classify (childTermination env) with
  | some st => st
  | none => WaitStatus.signaled 9

/-- When execl fails the child exits at once with code 127, and the wait
loop observes that exit on its very first probe. -/
theorem classify_exec_failed (env : RunEnv) (hexec : env.execOk = false) :
    classify (childTermination env) =
      some (WaitStatus.exited EXEC_FAILURE_EXIT_CODE) := by
  have hp : poll_wait (TIMEOUT_SECONDS * 1000) (some 0) 0 = true :=
    (poll_wait_timeout_iff 0).mpr (by omega)
  simp [classify, childTermination, hexec, hp]

/-- Claim C1: run_test_process reports success (return value 0) exactly when
the spawned child actually terminated normally with exit status zero; on
success up to buffer_size - 1 bytes of the merged stdout/stderr are placed
NUL-terminated in the caller buffer, on any failure no output is collected,
and when execl fails the child exits with the distinguished code 127 so the
parent classifies the run as failed. -/
theorem run_success_iff_exit_zero (env : RunEnv) (cap : Nat)
    (h1 : env.pipe1Ok = true) (h2 : env.pipe2Ok = true) (h3 : env.forkOk = true) :
    ((run_test_process env cap).ret = 0 ↔
       actualTermination env = WaitStatus.exited 0) ∧
    ((run_test_process env cap).ret = 0 →
       (run_test_process env cap).buffer = some (env.childOutput.take (cap - 1)) ∧
       (env.childOutput.take (cap - 1)).length ≤ cap - 1) ∧
    ((run_test_process env cap).ret ≠ 0 → (run_test_process env cap).buffer = none) ∧
    (env.execOk = false →
       childTermination env = some (0, WaitStatus.exited EXEC_FAILURE_EXIT_CODE) ∧
       (run_test_process env cap).ret = -1) := by
  have hlen : (env.childOutput.take (cap - 1)).length ≤ cap - 1 := by
    rw [List.length_take]; exact min_le_left _ _
  rcases hc : classify (childTermination env) with _ | st
  · simp only [run_test_process, h1, h2, h3, hc, actualTermination]
    refine ⟨⟨fun hcon => by norm_num at hcon, fun hcon => WaitStatus.noConfusion hcon⟩,
      by norm_num, by norm_num, ?_⟩
    intro hexec
    exact ⟨by simp [childTermination, hexec], by norm_num⟩
  · rcases st with c | s
    · rcases c with _ | c
      · simp only [run_test_process, h1, h2, h3, hc, actualTermination]
        refine ⟨by norm_num, by simp [hlen], by norm_num, ?_⟩
        intro hexec
        have hcf := classify_exec_failed env hexec
        rw [hc] at hcf
        simp [EXEC_FAILURE_EXIT_CODE] at hcf
      · simp only [run_test_process, h1, h2, h3, hc, actualTermination]
        refine ⟨⟨fun hcon => by norm_num at hcon,
          fun hcon => by injection hcon with h; omega⟩, by norm_num, by norm_num, ?_⟩
        intro hexec
        exact ⟨by simp [childTermination, hexec], by norm_num⟩
    · simp only [run_test_process, h1, h2, h3, hc, actualTermination]
      refine ⟨⟨fun hcon => by norm_num at hcon, fun hcon => WaitStatus.noConfusion hcon⟩,
        by norm_num, by norm_num, ?_⟩
      intro hexec
      exact ⟨by simp [childTermination, hexec], by norm_num⟩

/-- Concrete successful run: both pipes, fork and exec succeed and the child
exits 0 immediately after writing two bytes of output. -/
def okEnv : RunEnv :=
  { pipe1Ok := true, pipe2Ok := true, forkOk := true, execOk := true,
    childExit := some (0, WaitStatus.exited 0), childOutput := [ 'h', 'i' ] }

/-- Witness for run_success_iff_exit_zero at a concrete environment. -/
theorem run_success_iff_exit_zero_witness :
    (run_test_process okEnv MAX_OUTPUT_SIZE).ret = 0 := by
  have hp : poll_wait (TIMEOUT_SECONDS * 1000) (some 0) 0 = true :=
    (poll_wait_timeout_iff 0).mpr (by omega)
  exact (run_success_iff_exit_zero okEnv MAX_OUTPUT_SIZE rfl rfl rfl).1.mpr
    (by simp [actualTermination, classify, childTermination, okEnv, hp])

/-- Claim C2: when the child has not terminated by the 5-second wall-clock
deadline, run_test_process sends it SIGKILL, reaps it with a blocking
waitpid, and returns the failure value; and the 10 ms polling loop performs
at most 500 probes, so the call always terminates. -/
theorem run_timeout_kills (env : RunEnv) (cap : Nat)
    (h1 : env.pipe1Ok = true) (h2 : env.pipe2Ok = true) (h3 : env.forkOk = true) :
    ((∀ t st, childTermination env = some (t, st) → TIMEOUT_SECONDS * 1000 ≤ t) →
       (run_test_process env cap).ret = -1 ∧
       (run_test_process env cap).killedSignal = some 9 ∧
       (run_test_process env cap).childReaped = true) ∧
    (run_test_process env cap).loopIters ≤ 500 := by
  have hiters : poll_iters (TIMEOUT_SECONDS * 1000) (termTime env) 0 ≤ 500 := by
    have h := poll_iters_le (TIMEOUT_SECONDS * 1000) (termTime env) 0
    have h500 : (TIMEOUT_SECONDS * 1000 - 0 + 9) / 10 = 500 := by
      norm_num [TIMEOUT_SECONDS]
    omega
  constructor
  · intro hlate
    have hc : classify (childTermination env) = none := by
      rcases hterm : childTermination env with _ | ⟨t, st⟩
      · simp [classify]
      · have ht := hlate t st hterm
        have ht5 : 5000 ≤ t := by norm_num [TIMEOUT_SECONDS] at ht; exact ht
        cases hb : poll_wait (TIMEOUT_SECONDS * 1000) (some t) 0 with
        | false => simp [classify, hb]
        | true => exact absurd ((poll_wait_timeout_iff t).mp hb) (by omega)
    simp [run_test_process, h1, h2, h3, hc]
  · rcases hc : classify (childTermination env) with _ | st
    · simpa [run_test_process, h1, h2, h3, hc] using hiters
    · rcases st with c | s
      · rcases c with _ | c
        · simpa [run_test_process, h1, h2, h3, hc] using hiters
        · simpa [run_test_process, h1, h2, h3, hc] using hiters
      · simpa [run_test_process, h1, h2, h3, hc] using hiters

/-- Environment whose child loops forever: pipes/fork/exec succeed but the
child never becomes reapable on its own. -/
def loopForeverEnv : RunEnv :=
  { pipe1Ok := true, pipe2Ok := true, forkOk := true, execOk := true,
    childExit := none, childOutput := [] }

/-- Witness for run_timeout_kills on a child that never terminates. -/
theorem run_timeout_kills_witness :
    (run_test_process loopForeverEnv MAX_OUTPUT_SIZE).ret = -1 ∧
    (run_test_process loopForeverEnv MAX_OUTPUT_SIZE).killedSignal = some 9 ∧
    (run_test_process loopForeverEnv MAX_OUTPUT_SIZE).childReaped = true :=
  (run_timeout_kills loopForeverEnv MAX_OUTPUT_SIZE rfl rfl rfl).1
    (by intro t st h; simp [childTermination, loopForeverEnv] at h)

/-- Environment where both pipes are created but fork fails. -/
def forkFailEnv : RunEnv :=
  { pipe1Ok := true, pipe2Ok := true, forkOk := false, execOk := true,
    childExit := none, childOutput := [] }

/-- Claim C3 counterexample: on the fork-failure path run_test_process
returns with all four pipe descriptors it created still open in the parent,
so it is false that every invocation closes every descriptor it created. -/
theorem run_fd_leak_counterexample :
    ¬ (∀ (env : RunEnv) (cap : Nat),
        (run_test_process env cap).openFds = 0 ∧
        ((run_test_process env cap).childSpawned = true →
          (run_test_process env cap).childReaped = true)) := by
  intro h
  have h4 := (h forkFailEnv 4096).1
  simp [run_test_process, forkFailEnv] at h4

/-- Claim C3 amended: a child spawned by run_test_process is always reaped
before the call returns, and on the spawned paths (both pipes and the fork
succeed) every pipe descriptor created by the call is closed again; but when
fork fails the four already-created descriptors remain open, and when the
second pipe creation fails the first two remain open (no child exists on
those paths). -/
theorem run_reap_and_fd_accounting (env : RunEnv) (cap : Nat) :
    ((run_test_process env cap).childSpawned = true →
       (run_test_process env cap).childReaped = true) ∧
    (env.pipe1Ok = true → env.pipe2Ok = true → env.forkOk = true →
       (run_test_process env cap).openFds = 0) ∧
    (env.pipe1Ok = true → env.pipe2Ok = true → env.forkOk = false →
       (run_test_process env cap).openFds = 4 ∧
       (run_test_process env cap).childSpawned = false) ∧
    (env.pipe1Ok = true → env.pipe2Ok = false →
       (run_test_process env cap).openFds = 2 ∧
       (run_test_process env cap).childSpawned = false) ∧
    (env.pipe1Ok = false →
       (run_test_process env cap).openFds = 0 ∧
       (run_test_process env cap).childSpawned = false) := by
  cases hp1 : env.pipe1Ok with
  | false => simp [run_test_process, hp1]
  | true =>
    cases hp2 : env.pipe2Ok with
    | false => simp [run_test_process, hp1, hp2]
    | true =>
      cases hf : env.forkOk with
      | false => simp [run_test_process, hp1, hp2, hf]
      | true =>
        rcases hc : classify (childTermination env) with _ | st
        · simp [run_test_process, hp1, hp2, hf, hc]
        · rcases st with c | s
          · rcases c with _ | c <;> simp [run_test_process, hp1, hp2, hf, hc]
          · simp [run_test_process, hp1, hp2, hf, hc]

/-- Witness for run_reap_and_fd_accounting: on a fully successful run all
descriptors are closed. -/
theorem run_reap_and_fd_accounting_witness :
    (run_test_process okEnv MAX_OUTPUT_SIZE).openFds = 0 :=
  (run_reap_and_fd_accounting okEnv MAX_OUTPUT_SIZE).2.1 rfl rfl rfl

/-! ## Output normalization: trim_trailing_whitespace -/

/-- The character class used by isspace(3) in the C locale: space, horizontal
tab, newline, vertical tab, form feed, carriage return. -/
def isspaceChar (c : Char) : Bool :=
  c = ' ' || c = '\t' || c = '\n' || c = '\x0B' || c = '\x0C' || c = '\x0D'

/-- Translation of trim_trailing_whitespace (eval.c lines 601-608): the C
loop lowers len from strlen while the last retained character satisfies
isspace, i.e. it drops the longest isspace suffix of the string. -/
def trim_trailing_whitespace (s : List Char) : List Char :=
  (s.reverse.dropWhile isspaceChar).reverse

/-- The output comparison performed for each test in
calculate_dynamic_passrate (eval.c lines 215-218): trim the captured output,
then compare byte-exactly with the expected string. -/
def outputs_match (captured expected : List Char) : Bool :=
  trim_trailing_whitespace captured == expected

/-- The character class named by the specification sentence for the trim
step: exactly space, tab and newline. -/
def isClaimedWhitespace (c : Char) : Bool :=
  c = ' ' || c = '\t' || c = '\n'

/-- The trim operation the specification sentence describes, stripping only
trailing space, tab and newline. -/
def trimClaimed (s : List Char) : List Char :=
  (s.reverse.dropWhile isClaimedWhitespace).reverse

theorem dropWhile_head_false (p : Char → Bool) (l : List Char) :
    l.dropWhile p = [] ∨ ∃ c cs, l.dropWhile p = c :: cs ∧ p c = false := by
  induction l with
  | nil => left; rfl
  | cons c cs ih =>
    by_cases h : p c
    · simpa [List.dropWhile_cons, h] using ih
    · right
      exact ⟨c, cs, by simp [List.dropWhile_cons, h], by simp [h]⟩

/-- Claim C6 counterexample: the code compares captured output with a
trailing carriage return as equal to the expected string without it, because
isspace also accepts carriage return; the trim the claim describes (exactly
space, tab, newline) would keep that byte and make the comparison fail. -/
theorem trim_carriage_return_counterexample :
    outputs_match ("abc\x0D".toList) ("abc".toList) = true ∧
    isClaimedWhitespace '\x0D' = false ∧
    trimClaimed ("abc\x0D".toList) = "abc\x0D".toList ∧
    trim_trailing_whitespace ("abc\x0D".toList) ≠ trimClaimed ("abc\x0D".toList) := by
  decide

/-- Claim C6 amended: before comparison exactly the trailing characters in
the C-locale isspace class (space, tab, newline, vertical tab, form feed,
carriage return) are stripped from the captured output and nothing else is
normalized: the trimmed output is the longest prefix not ending in such a
character, and the comparison against the expected string is otherwise
byte-exact, so captured "abc\n\n  " matches expected "abc" while captured
"abc " does not match expected "ab c". -/
theorem trim_isspace_class (s : List Char) :
    (∃ t, s = trim_trailing_whitespace s ++ t ∧ ∀ c ∈ t, isspaceChar c = true) ∧
    (trim_trailing_whitespace s = [] ∨
       ∃ c cs, trim_trailing_whitespace s = cs ++ [c] ∧ isspaceChar c = false) ∧
    (∀ expected : List Char,
       outputs_match s expected = true ↔ trim_trailing_whitespace s = expected) ∧
    outputs_match ("abc\n\n  ".toList) ("abc".toList) = true ∧
    outputs_match ("abc ".toList) ("ab c".toList) = false := by
  refine ⟨?_, ?_, ?_, by decide, by decide⟩
  · refine ⟨(s.reverse.takeWhile isspaceChar).reverse, ?_, ?_⟩
    · conv_lhs => rw [← s.reverse_reverse, ← List.takeWhile_append_dropWhile
        (p := isspaceChar) (l := s.reverse)]
      rw [List.reverse_append]
      rfl
    · intro c hc
      rw [List.mem_reverse] at hc
      exact List.mem_takeWhile_imp hc
  · rcases dropWhile_head_false isspaceChar s.reverse with h | ⟨c, cs, heq, hc⟩
    · left; simp [trim_trailing_whitespace, h]
    · right
      exact ⟨c, cs.reverse, by simp [trim_trailing_whitespace, heq], hc⟩
  · intro expected
    simp [outputs_match]

/-- Witness for trim_isspace_class at a concrete captured output. -/
theorem trim_isspace_class_witness :
    outputs_match ("5\n".toList) ("5".toList) = true :=
  ((trim_isspace_class ("5\n".toList)).2.2.1 ("5".toList)).mpr (by decide)

/-! ## The Scoring Aggregator: calculate_dynamic_passrate

The loop body of calculate_dynamic_passrate invokes run_test_process; each
TestRun abstracts one such invocation by its weight, its expected output, and
the outcome of the runner call: some captured-output when run_test_process
returned 0, none when it returned -1 (timeout or execution error).  Float
arithmetic (all values involved in the claims are small and exact) is modeled
over the rationals. -/

/-- One test of the suite together with the outcome of its sandboxed run. -/
structure TestRun where
  weight : ℚ
  expected : List Char
  result : Option (List Char)

/-- A test counts as passed exactly when the runner returned 0 and the
trimmed captured output equals the expected string (eval.c lines 215-221). -/
def testPassed (t : TestRun) : Bool :=
  match t.result with
  | some out => outputs_match out t.expected
  | none => false

/-- The loop accumulator of calculate_dynamic_passrate. -/
structure AggState where
  tests_passed : Nat
  tests_failed : Nat
  num_failed_details : Nat
  total_weight : ℚ
  passed_weight : ℚ

/-- One iteration of the loop in calculate_dynamic_passrate (eval.c lines
208-247): the weight always joins total_weight; a pass increments
tests_passed and passed_weight, a failure increments tests_failed and
records a detail string while fewer than MAX_TESTS are retained. -/
def stepTest (s : AggState) (t : TestRun) : AggState :=
  let s1 := { s with total_weight := s.total_weight + t.weight }
  match t.result with
  | some out =>
    if outputs_match out t.expected then
      { s1 with tests_passed := s1.tests_passed + 1,
                passed_weight := s1.passed_weight + t.weight }
    else
      { s1 with tests_failed := s1.tests_failed + 1,
                num_failed_details :=
                  if s1.num_failed_details < MAX_TESTS then
                    s1.num_failed_details + 1 else s1.num_failed_details }
  | none =>
    { s1 with tests_failed := s1.tests_failed + 1,
              num_failed_details :=
                if s1.num_failed_details < MAX_TESTS then
                  s1.num_failed_details + 1 else s1.num_failed_details }

/-- The final metrics record of eval.c (EnhancedEvalMetrics), keeping the
fields the claims are about. -/
structure EnhancedEvalMetrics where
  passrate : ℚ
  memory_score : ℚ
  robustness_score : ℚ
  weighted_score : ℚ
  execution_time_ms : Int
  tests_passed : Nat
  tests_failed : Nat
  num_failed_details : Nat
deriving DecidableEq

/-- Translation of calculate_dynamic_passrate (eval.c lines 198-254): run
the loop over the suite, then form the simple pass rate (guarded by
num_tests > 0) and the weighted score (guarded by total_weight > 0).  The
function's float return value is assigned to metrics.passrate by main
(eval.c line 363), so it is stored directly in the passrate field here;
memory and robustness scores are filled in later by main. -/
def calculate_dynamic_passrate (tests : List TestRun) : EnhancedEvalMetrics :=
  let s := tests.foldl stepTest
    { tests_passed := 0, tests_failed := 0, num_failed_details := 0,
      total_weight := 0, passed_weight := 0 }
  { passrate :=
      if 0 < tests.length then (s.tests_passed : ℚ) / (tests.length : ℚ) * 100 else 0,
    memory_score := 0,
    robustness_score := 0,
    weighted_score :=
      if 0 < s.total_weight then s.passed_weight / s.total_weight * 100 else 0,
    execution_time_ms := 0,
    tests_passed := s.tests_passed,
    tests_failed := s.tests_failed,
    num_failed_details := s.num_failed_details }

/-- Number of passed tests of a suite, stated declaratively. -/
def passedCount (ts : List TestRun) : Nat := (ts.filter testPassed).length

/-- Number of failed tests of a suite, stated declaratively. -/
def failedCount (ts : List TestRun) : Nat :=
  (ts.filter (fun t => ! testPassed t)).length

/-- Sum of the weights of all tests. -/
def totalWeight (ts : List TestRun) : ℚ := (ts.map TestRun.weight).sum

/-- Sum of the weights of the passed tests. -/
def passedWeight (ts : List TestRun) : ℚ :=
  ((ts.filter testPassed).map TestRun.weight).sum

theorem stepTest_fields (s : AggState) (t : TestRun) :
    (stepTest s t).total_weight = s.total_weight + t.weight ∧
    (stepTest s t).passed_weight =
      s.passed_weight + (if testPassed t then t.weight else 0) ∧
    (stepTest s t).tests_passed =
      s.tests_passed + (if testPassed t then 1 else 0) ∧
    (stepTest s t).tests_failed =
      s.tests_failed + (if testPassed t then 0 else 1) := by
  rcases hr : t.result with _ | out
  · simp [stepTest, testPassed, hr]
  · by_cases hm : outputs_match out t.expected
    · simp [stepTest, testPassed, hr, hm]
    · simp [stepTest, testPassed, hr, hm]

theorem foldl_stepTest_spec (ts : List TestRun) : ∀ s : AggState,
    (ts.foldl stepTest s).total_weight = s.total_weight + totalWeight ts ∧
    (ts.foldl stepTest s).passed_weight = s.passed_weight + passedWeight ts ∧
    (ts.foldl stepTest s).tests_passed = s.tests_passed + passedCount ts ∧
    (ts.foldl stepTest s).tests_failed = s.tests_failed + failedCount ts := by
  induction ts with
  | nil =>
    intro s
    simp [totalWeight, passedWeight, passedCount, failedCount]
  | cons t ts ih =>
    intro s
    rw [List.foldl_cons]
    obtain ⟨i1, i2, i3, i4⟩ := ih (stepTest s t)
    obtain ⟨f1, f2, f3, f4⟩ := stepTest_fields s t
    refine ⟨?_, ?_, ?_, ?_⟩
    · rw [i1, f1]
      simp [totalWeight]
      ring
    · rw [i2, f2]
      by_cases hp : testPassed t
      · simp [passedWeight, hp]
        ring
      · simp [passedWeight, hp]
    · rw [i3, f3]
      by_cases hp : testPassed t
      · simp [passedCount, hp]
        omega
      · simp [passedCount, hp]
    · rw [i4, f4]
      by_cases hp : testPassed t
      · simp [failedCount, hp]
      · simp [failedCount, hp]
        omega

/-- The suite of the weighted-score scenario in the specification: weights
1, 2, 1, where only the weight-2 test fails. -/
def demoWeighted : List TestRun :=
  [ { weight := 1, expected := "5".toList, result := some "5".toList },
    { weight := 2, expected := "7".toList, result := some "0".toList },
    { weight := 1, expected := "9".toList, result := some "9".toList } ]

/-- A suite with the same pass pattern as demoWeighted but equal weights. -/
def demoUnweighted : List TestRun :=
  [ { weight := 1, expected := "5".toList, result := some "5".toList },
    { weight := 1, expected := "7".toList, result := some "0".toList },
    { weight := 1, expected := "9".toList, result := some "9".toList } ]

theorem demo_outputs :
    outputs_match [ '5' ] [ '5' ] = true ∧
    outputs_match [ '0' ] [ '7' ] = false ∧
    outputs_match [ '9' ] [ '9' ] = true :=
  ⟨rfl, rfl, rfl⟩

theorem demoWeighted_scores :
    (calculate_dynamic_passrate demoWeighted).weighted_score = 50 ∧
    (calculate_dynamic_passrate demoWeighted).passrate = 200 / 3 ∧
    (calculate_dynamic_passrate demoUnweighted).passrate = 200 / 3 ∧
    (calculate_dynamic_passrate demoUnweighted).weighted_score = 200 / 3 := by
  obtain ⟨om1, om2, om3⟩ := demo_outputs
  refine ⟨?_, ?_, ?_, ?_⟩ <;>
    norm_num [calculate_dynamic_passrate, demoWeighted, demoUnweighted,
      List.foldl_cons, List.foldl_nil, stepTest, om1, om2, om3]

/-- Claim C4: the weighted pass rate produced by the Scoring Aggregator is
(sum of weights of passed tests / sum of weights of all tests) times 100,
and 0 when the total weight is zero; in particular for weights 1, 2, 1 with
only the weight-2 test failing it is exactly 50. -/
theorem weighted_score_spec (tests : List TestRun) :
    (0 < totalWeight tests →
       (calculate_dynamic_passrate tests).weighted_score =
         passedWeight tests / totalWeight tests * 100) ∧
    (totalWeight tests = 0 →
       (calculate_dynamic_passrate tests).weighted_score = 0) ∧
    (calculate_dynamic_passrate demoWeighted).weighted_score = 50 := by
  obtain ⟨h1, h2, _, _⟩ := foldl_stepTest_spec tests
    { tests_passed := 0, tests_failed := 0, num_failed_details := 0,
      total_weight := 0, passed_weight := 0 }
  refine ⟨?_, ?_, demoWeighted_scores.1⟩
  · intro hpos
    simp only [calculate_dynamic_passrate, h1, h2]
    norm_num [hpos]
  · intro hzero
    simp only [calculate_dynamic_passrate, h1, h2]
    norm_num [hzero]

/-- Witness for weighted_score_spec: the demo suite has positive total
weight, so its weighted score takes the quotient form. -/
theorem weighted_score_spec_witness :
    (calculate_dynamic_passrate demoWeighted).weighted_score =
      passedWeight demoWeighted / totalWeight demoWeighted * 100 :=
  (weighted_score_spec demoWeighted).1 (by norm_num [totalWeight, demoWeighted])

/-- Claim C9: the simple pass rate produced by the Scoring Aggregator is
(tests passed / total tests) times 100, 0 for an empty suite, and is stored
in the metrics alongside and independently of the weighted score: two suites
can agree on the simple rate yet differ on the weighted one. -/
theorem simple_passrate_spec (tests : List TestRun) :
    ((calculate_dynamic_passrate tests).passrate =
       if 0 < tests.length then (passedCount tests : ℚ) / (tests.length : ℚ) * 100
       else 0) ∧
    (tests = [] → (calculate_dynamic_passrate tests).passrate = 0) ∧
    (calculate_dynamic_passrate tests).tests_passed = passedCount tests ∧
    (calculate_dynamic_passrate tests).tests_failed = failedCount tests ∧
    (calculate_dynamic_passrate demoUnweighted).passrate =
      (calculate_dynamic_passrate demoWeighted).passrate ∧
    (calculate_dynamic_passrate demoUnweighted).weighted_score ≠
      (calculate_dynamic_passrate demoWeighted).weighted_score := by
  obtain ⟨_, _, h3, h4⟩ := foldl_stepTest_spec tests
    { tests_passed := 0, tests_failed := 0, num_failed_details := 0,
      total_weight := 0, passed_weight := 0 }
  refine ⟨?_, ?_, ?_, ?_, ?_, ?_⟩
  · simp only [calculate_dynamic_passrate, h3]
    norm_num
  · intro he
    subst he
    simp [calculate_dynamic_passrate]
  · simp only [calculate_dynamic_passrate, h3]
    norm_num
  · simp only [calculate_dynamic_passrate, h4]
    norm_num
  · rw [demoWeighted_scores.2.2.1, demoWeighted_scores.2.1]
  · rw [demoWeighted_scores.2.2.2, demoWeighted_scores.1]
    norm_num

/-- Witness for simple_passrate_spec: the three-test demo suite passes 2 of
3 tests, a simple rate of 200/3. -/
theorem simple_passrate_spec_witness :
    (calculate_dynamic_passrate demoWeighted).passrate = 200 / 3 := by
  rw [(simple_passrate_spec demoWeighted).1]
  have hpc : passedCount demoWeighted = 2 := by decide
  rw [hpc]
  norm_num [demoWeighted]

/-! ## The Memory Auditor: analyze_memory

The external checker writes a textual log.  Each line is abstracted by
whether it contains the "definitely lost:" marker and, if so, whether the
sscanf pattern parses a byte count from it.  The log argument is none when
fopen on the log path fails. -/

/-- One line of the memory-checker log: a parsed marker line carrying its
byte count, a line where strstr finds the marker but sscanf parses no
number, or any other line. -/
inductive MemLine where
  | marker (n : Int)
  | markerUnparsed
  | other
deriving DecidableEq

/-- The scan loop of analyze_memory (eval.c lines 542-547): definitely_lost
starts at 0, the first line containing the marker overwrites it with the
parsed count (or leaves 0 if parsing fails) and the loop breaks. -/
def scanDefinitelyLost : List MemLine → Int
  | [] => 0
  | MemLine.marker n :: _ => n
  | MemLine.markerUnparsed :: _ => 0
  | MemLine.other :: rest => scanDefinitelyLost rest

/-- The threshold ladder of analyze_memory (eval.c lines 551-558). -/
def memScoreOf (definitely_lost : Int) : ℚ :=
  if definitely_lost = 0 then 100
  else if definitely_lost < 100 then 75
  else if definitely_lost < 1024 then 25
  else 0

/-- Translation of analyze_memory (eval.c lines 524-559): an empty suite
scores 100 without running anything, an unopenable log scores 0, otherwise
the score comes from the scanned definitely-lost count. -/
def analyze_memory (num_tests : Nat) (log : Option (List MemLine)) : ℚ :=
  if num_tests = 0 then 100
  else
    match log with
    | none => 0
    | some lines => memScoreOf (scanDefinitelyLost lines)

theorem scanDefinitelyLost_all_other (lines : List MemLine)
    (h : ∀ l ∈ lines, l = MemLine.other) : scanDefinitelyLost lines = 0 := by
  induction lines with
  | nil => rfl
  | cons l ls ih =>
    have hl : l = MemLine.other := h l (by simp)
    subst hl
    exact ih (fun x hx => h x (by simp [hx]))

theorem scanDefinitelyLost_first_marker (pre post : List MemLine) (n : Int)
    (hpre : ∀ l ∈ pre, l = MemLine.other) :
    scanDefinitelyLost (pre ++ MemLine.marker n :: post) = n := by
  induction pre with
  | nil => rfl
  | cons l ls ih =>
    have hl : l = MemLine.other := hpre l (by simp)
    subst hl
    exact ih (fun x hx => hpre x (by simp [hx]))

/-- Claim C5: with a nonempty suite and an openable log whose first marker
line reports N leaked bytes, the memory score follows the fixed thresholds
(0 bytes gives 100, under 100 gives 75, under 1024 gives 25, otherwise 0),
and a log with no marker line at all scores 100, the same as reporting
zero. -/
theorem analyze_memory_thresholds (nt : Nat) (hnt : 0 < nt)
    (pre post : List MemLine) (hpre : ∀ l ∈ pre, l = MemLine.other) (n : Nat) :
    ((n = 0 →
        analyze_memory nt (some (pre ++ MemLine.marker (n : Int) :: post)) = 100) ∧
     (0 < n → n < 100 →
        analyze_memory nt (some (pre ++ MemLine.marker (n : Int) :: post)) = 75) ∧
     (100 ≤ n → n < 1024 →
        analyze_memory nt (some (pre ++ MemLine.marker (n : Int) :: post)) = 25) ∧
     (1024 ≤ n →
        analyze_memory nt (some (pre ++ MemLine.marker (n : Int) :: post)) = 0)) ∧
    (∀ lines : List MemLine, (∀ l ∈ lines, l = MemLine.other) →
       analyze_memory nt (some lines) = 100) := by
  have hnt0 : nt ≠ 0 := by omega
  have hscan := scanDefinitelyLost_first_marker pre post (n : Int) hpre
  constructor
  · refine ⟨?_, ?_, ?_, ?_⟩
    · intro h0
      subst h0
      have hs : scanDefinitelyLost (pre ++ MemLine.marker 0 :: post) = 0 := by
        simpa using hscan
      simp [analyze_memory, hnt0, hs, memScoreOf]
    · intro hlo hhi
      have h1 : ((n : Int) = 0) = False := by simp; omega
      have h2 : ((n : Int) < 100) = True := by simp; omega
      simp [analyze_memory, hnt0, hscan, memScoreOf, h1, h2]
    · intro hlo hhi
      have h1 : ((n : Int) = 0) = False := by simp; omega
      have h2 : ((n : Int) < 100) = False := by simp; omega
      have h3 : ((n : Int) < 1024) = True := by simp; omega
      simp [analyze_memory, hnt0, hscan, memScoreOf, h1, h2, h3]
    · intro hlo
      have h1 : ((n : Int) = 0) = False := by simp; omega
      have h2 : ((n : Int) < 100) = False := by simp; omega
      have h3 : ((n : Int) < 1024) = False := by simp; omega
      simp [analyze_memory, hnt0, hscan, memScoreOf, h1, h2, h3]
  · intro lines hl
    simp [analyze_memory, hnt0, scanDefinitelyLost_all_other lines hl, memScoreOf]

/-- Witness for analyze_memory_thresholds: one test, log reporting 500
bytes definitely lost, score 25. -/
theorem analyze_memory_thresholds_witness :
    analyze_memory 1 (some [ MemLine.marker 500 ]) = 25 := by
  have h := (analyze_memory_thresholds 1 (by omega) [] []
    (by intro l hl; simp at hl) 500).1.2.2.1 (by omega) (by omega)
  simpa using h

/-- Claim C10: with a nonempty suite, an unopenable memory-checker log
scores 0, in contrast with an openable log lacking the marker, which scores
100. -/
theorem analyze_memory_unopenable_log (nt : Nat) (hnt : 0 < nt)
    (lines : List MemLine) (hl : ∀ l ∈ lines, l = MemLine.other) :
    analyze_memory nt none = 0 ∧ analyze_memory nt (some lines) = 100 := by
  have hnt0 : nt ≠ 0 := by omega
  constructor
  · simp [analyze_memory, hnt0]
  · simp [analyze_memory, hnt0, scanDefinitelyLost_all_other lines hl, memScoreOf]

/-- Witness for analyze_memory_unopenable_log at a concrete log. -/
theorem analyze_memory_unopenable_log_witness :
    analyze_memory 1 none = 0 ∧ analyze_memory 1 (some [ MemLine.other ]) = 100 :=
  analyze_memory_unopenable_log 1 (by omega) [ MemLine.other ]
    (by intro l hl; simpa using hl)

/-! ## The Robustness Prober: check_robustness -/

/-- Environment of one check_robustness call: whether fork succeeds, and the
time (ms after SIGINT delivery) at which the child terminates, none if it
ignores the signal and never exits. -/
structure ProbeEnv where
  forkOk : Bool
  termAfterSigint : Option Nat

/-- Result of one check_robustness call: the score, whether SIGINT was sent
after the settling delay, and whether the parent had to SIGKILL and reap a
still-running child. -/
structure ProbeResult where
  score : ℚ
  sigintSent : Bool
  sigintDelayUs : Nat
  killed : Bool
  reaped : Bool

/-- Translation of check_robustness (eval.c lines 565-596): fork failure
returns 0; otherwise the parent sleeps 200 ms, sends SIGINT, and polls for
up to 1 second; termination inside the window scores 100, otherwise the
child is SIGKILLed, reaped, and scored 0. -/
def check_robustness (env : ProbeEnv) : ProbeResult :=
  if env.forkOk = false then
    { score := 0, sigintSent := false, sigintDelayUs := 0,
      killed := false, reaped := false }
  else if poll_wait 1000 env.termAfterSigint 0 then
    { score := 100, sigintSent := true, sigintDelayUs := ROBUSTNESS_SIGINT_WAIT_US,
      killed := false, reaped := true }
  else
    { score := 0, sigintSent := true, sigintDelayUs := ROBUSTNESS_SIGINT_WAIT_US,
      killed := true, reaped := true }

/-- Claim C7: check_robustness always returns exactly 0 or 100; it returns
100 exactly when the probed child (fork succeeded) terminates early enough
to be observed by the 10 ms polling loop inside the 1-second window after
SIGINT, delivered after the 200 ms settling delay; otherwise, when a child
exists, it is SIGKILLed and reaped and the score is 0. -/
theorem check_robustness_binary (env : ProbeEnv) :
    ((check_robustness env).score = 0 ∨ (check_robustness env).score = 100) ∧
    ((check_robustness env).score = 100 ↔
       env.forkOk = true ∧ ∃ d, env.termAfterSigint = some d ∧ d ≤ 990) ∧
    (env.forkOk = true →
       (check_robustness env).sigintSent = true ∧
       (check_robustness env).sigintDelayUs = ROBUSTNESS_SIGINT_WAIT_US) ∧
    (env.forkOk = true → (check_robustness env).score = 0 →
       (check_robustness env).killed = true ∧ (check_robustness env).reaped = true) := by
  cases hf : env.forkOk with
  | false =>
    refine ⟨by simp [check_robustness, hf], ?_, by simp [hf], by simp [hf]⟩
    simp only [check_robustness, hf]
    norm_num
  | true =>
    cases hw : poll_wait 1000 env.termAfterSigint 0 with
    | true =>
      refine ⟨by simp [check_robustness, hf, hw], ?_,
        by simp [check_robustness, hf, hw], by simp [check_robustness, hf, hw]⟩
      simp only [check_robustness, hf, hw]
      norm_num
      rcases ht : env.termAfterSigint with _ | d
      · rw [ht] at hw
        rw [poll_wait_none] at hw
        exact absurd hw (by simp)
      · rw [ht] at hw
        exact ⟨d, rfl, (poll_wait_probe_iff d).mp hw⟩
    | false =>
      refine ⟨by simp [check_robustness, hf, hw], ?_,
        by simp [check_robustness, hf, hw], by simp [check_robustness, hf, hw]⟩
      simp only [check_robustness, hf, hw]
      norm_num
      rintro d hd
      by_contra hgt
      have hle : d ≤ 990 := by omega
      rw [hd] at hw
      exact absurd ((poll_wait_probe_iff d).mpr hle) (by simp [hw])

/-- Witness for check_robustness_binary: a child that exits right when
SIGINT arrives scores 100. -/
theorem check_robustness_binary_witness :
    (check_robustness { forkOk := true, termAfterSigint := some 0 }).score = 100 :=
  (check_robustness_binary { forkOk := true, termAfterSigint := some 0 }).2.1.mpr
    ⟨rfl, 0, rfl, by omega⟩

/-! ## The top-level flow: main -/

/-- Environment of one evaluator run: whether the usage check passes (argc
at least 3), whether the test definitions load, whether mkdtemp succeeds,
whether compilation succeeds, and the data feeding the scoring phases. -/
structure MainEnv where
  argcOk : Bool
  loadOk : Bool
  mkdtempOk : Bool
  compileOk : Bool
  tests : List TestRun
  memLog : Option (List MemLine)
  probe : ProbeEnv
  elapsedMs : Int

/-- Observable outcome of one evaluator run: the process exit code and the
metrics written to the results report, if one was written. -/
structure MainOutcome where
  exitCode : Nat
  report : Option EnhancedEvalMetrics

/-- The all-zero metrics record written on compilation failure
(EnhancedEvalMetrics metrics = 0 at eval.c line 354). -/
def zeroedMetrics : EnhancedEvalMetrics :=
  { passrate := 0, memory_score := 0, robustness_score := 0, weighted_score := 0,
    execution_time_ms := 0, tests_passed := 0, tests_failed := 0,
    num_failed_details := 0 }

/-- Translation of main (eval.c lines 321-383): usage error, load failure
and mkdtemp failure return 1 with no report; compilation failure writes a
zeroed report and returns 1; otherwise the three scoring phases run, the
report is written, and the exit code is 0 regardless of the scores. -/
def main_run (env : MainEnv) : MainOutcome :=
  if env.argcOk = false then { exitCode := 1, report := none }
  else if env.loadOk = false then { exitCode := 1, report := none }
  else if env.mkdtempOk = false then { exitCode := 1, report := none }
  else if env.compileOk = false then { exitCode := 1, report := some zeroedMetrics }
  else
    let m := calculate_dynamic_passrate env.tests
    { exitCode := 0,
      report := some
        { m with memory_score := analyze_memory env.tests.length env.memLog,
                 robustness_score := (check_robustness env.probe).score,
                 execution_time_ms := env.elapsedMs } }

/-- Claim C8: with the usage check passed, the evaluator exits 0 exactly
when loading, scratch-directory creation and compilation all succeed,
whatever the test outcomes and scores are; it exits 1 when any of the three
fails; and on compilation failure it still writes a report whose scores are
all zero before exiting 1. -/
theorem main_exit_codes (env : MainEnv) (ha : env.argcOk = true) :
    (env.loadOk = true → env.mkdtempOk = true → env.compileOk = true →
       (main_run env).exitCode = 0) ∧
    (env.loadOk = false ∨ env.mkdtempOk = false ∨ env.compileOk = false →
       (main_run env).exitCode = 1) ∧
    (env.loadOk = true → env.mkdtempOk = true → env.compileOk = false →
       (main_run env).report = some zeroedMetrics ∧
       zeroedMetrics.passrate = 0 ∧ zeroedMetrics.weighted_score = 0 ∧
       zeroedMetrics.memory_score = 0 ∧ zeroedMetrics.robustness_score = 0) := by
  refine ⟨?_, ?_, ?_⟩
  · intro hl hm hc
    simp [main_run, ha, hl, hm, hc]
  · intro hfail
    cases hl : env.loadOk with
    | false => simp [main_run, ha, hl]
    | true =>
      cases hm : env.mkdtempOk with
      | false => simp [main_run, ha, hl, hm]
      | true =>
        cases hc : env.compileOk with
        | false => simp [main_run, ha, hl, hm, hc]
        | true =>
          rw [hl, hm, hc] at hfail
          rcases hfail with h | h | h <;> exact absurd h (by simp)
  · intro hl hm hc
    refine ⟨by simp [main_run, ha, hl, hm, hc], rfl, rfl, rfl, rfl⟩

/-- Concrete environment where everything succeeds but every test fails:
the evaluation still completes with exit code 0. -/
def allFailEnv : MainEnv :=
  { argcOk := true, loadOk := true, mkdtempOk := true, compileOk := true,
    tests := [ { weight := 1, expected := [ '5' ], result := none } ],
    memLog := some [ MemLine.other ],
    probe := { forkOk := true, termAfterSigint := none },
    elapsedMs := 12 }

/-- Witness for main_exit_codes: completed evaluation exits 0 even though
every test failed, and a compile-failure run exits 1 with a zeroed report. -/
theorem main_exit_codes_witness :
    (main_run allFailEnv).exitCode = 0 ∧
    (main_run { allFailEnv with compileOk := false }).exitCode = 1 ∧
    (main_run { allFailEnv with compileOk := false }).report = some zeroedMetrics :=
  ⟨(main_exit_codes allFailEnv rfl).1 rfl rfl rfl,
   (main_exit_codes { allFailEnv with compileOk := false } rfl).2.1 (by right; right; rfl),
   ((main_exit_codes { allFailEnv with compileOk := false } rfl).2.2 rfl rfl rfl).1⟩

end CodeEval
